import Mathlib

/-!
Verification of the variant-resolution engine and the checkout reconciliation
workflow of the taobao-ui storefront.

Part 1 embeds the product-detail page (`src/app/product/[id]/page.tsx`):
property-group extraction, property-image lookup, option availability,
selection toggling, SKU auto-matching and SKU auto-selection.

Part 2 embeds the checkout reconciliation dialog
(`src/components/OrderSummaryDialog.tsx`) and the optimistic cart-quantity
update (`src/components/CartDialog.tsx`).

Conventions: JavaScript `Map` objects (which preserve insertion order) are
modelled as association lists with set-semantics (`mapSet` replaces in place
or appends); JavaScript `Record<string, string>` objects are modelled the
same way.  A missing/`undefined` string field is modelled as `""` (both are
falsy in JavaScript and the code only tests them with `!x` / `x || y`);
a missing list is modelled as `[]` (the code only iterates with `?.forEach`).
`null`/`undefined` numeric fields are modelled as `Option Nat`.
-/

namespace TaobaoUI

/-! ### Association-list model of a JavaScript `Map` / object -/

/-- `Map.has` / `key in obj`. -/
def mapHas {α : Type} (m : List (String × α)) (k : String) : Bool :=
  m.any (fun p => p.1 == k)

/-- `Map.set` / `{...obj, [k]: v}`: replace in place if the key exists,
otherwise append (JS maps and objects keep insertion order). -/
def mapSet {α : Type} (m : List (String × α)) (k : String) (v : α) :
    List (String × α) :=
  if mapHas m k then m.map (fun p => if p.1 == k then (k, v) else p)
  else m ++ [(k, v)]

/-- `Map.get` / `obj[k]`, `none` for `undefined`. -/
def mapGet {α : Type} (m : List (String × α)) (k : String) : Option α :=
  (m.find? (fun p => p.1 == k)).map (fun p => p.2)

/-! ### Product-page data model (`src/app/product/[id]/page.tsx`) -/

/-- One `(prop_name, prop_id, value_name, value_id)` property entry of a SKU. -/
structure SkuProp where
  prop_name : String
  prop_id : Nat
  value_name : String
  value_id : Nat
deriving DecidableEq

/-- A purchasable SKU from `product.sku_list`. -/
structure Sku where
  sku_id : String
  quantity : Nat
  pic_url : String            -- "" encodes a missing picture
  properties : List SkuProp   -- [] encodes a missing list
deriving DecidableEq

/-- One entry of `product.property_image_list`: `properties` is the raw
semicolon-separated "(prop_id:value_id;...)" string. -/
structure PropertyImageEntry where
  properties : String   -- "" encodes a missing field
  image_url : String    -- "" encodes a missing field
deriving DecidableEq

/-- One entry of `product.multi_language_info.sku_properties`. -/
structure MlSkuProperties where
  sku_id : String
  properties : List SkuProp
deriving DecidableEq

/-- The parts of the product payload the variant-resolution engine reads. -/
structure Product where
  sku_list : List Sku
  property_image_list : List PropertyImageEntry
  ml_sku_properties : List MlSkuProperties
deriving DecidableEq

/-- `mlSkuProps?.properties || sku.properties`: the multi-language property
list for the SKU when one is present, the SKU's own list otherwise. -/
def displayProperties (prod : Product) (sku : Sku) : List SkuProp :=
  match prod.ml_sku_properties.find? (fun sp => sp.sku_id == sku.sku_id) with
  | some sp => sp.properties
  | none => sku.properties

/-! ### Property image map (page.tsx lines 148-170) -/

/-- Accumulator-based splitting of a character list at a separator char. -/
def splitOnCharAux (c : Char) : List Char → List Char → List (List Char)
  | [], acc => [acc.reverse]
  | d :: ds, acc =>
    if d == c then acc.reverse :: splitOnCharAux c ds []
    else splitOnCharAux c ds (d :: acc)

/-- JavaScript `s.split(c)` for a single-character separator (`"".split(c)`
is `[""]`, a trailing separator yields a trailing `""`). -/
def splitOnChar (c : Char) (s : String) : List String :=
  (splitOnCharAux c s.data []).map (fun cs => String.mk cs)

/-- An ASCII whitespace character (the cases relevant to `trim`). -/
def isSpaceChar (ch : Char) : Bool :=
  ch == ' ' || ch == '\t' || ch == '\n' || ch == '\r'

/-- JavaScript `s.trim()`: strip whitespace from both ends. -/
def trimChars (s : String) : String :=
  String.mk (((s.data.dropWhile isSpaceChar).reverse.dropWhile
    isSpaceChar).reverse)

/-- Processing of one `property_image_list` entry: skipped when `properties`
or `image_url` is missing; a single-property entry always sets its key; a
multi-property entry uses only its first pair and only when the key is not
already present. -/
def addPropertyImage (m : List (String × String)) (e : PropertyImageEntry) :
    List (String × String) :=
  if e.properties == "" || e.image_url == "" then m
  else if (splitOnChar ';' e.properties).length == 1 then
    if trimChars ((splitOnChar ';' e.properties).headD "") == "" then m
    else mapSet m (trimChars ((splitOnChar ';' e.properties).headD "")) e.image_url
  else
    if trimChars ((splitOnChar ';' e.properties).headD "") == ""
        || mapHas m (trimChars ((splitOnChar ';' e.properties).headD "")) then m
    else mapSet m (trimChars ((splitOnChar ';' e.properties).headD "")) e.image_url

/-- The `propertyImageMap` built by the `forEach` over `property_image_list`. -/
def buildPropertyImageMap (l : List PropertyImageEntry) : List (String × String) :=
  l.foldl addPropertyImage []

/-! ### Property-group extraction (page.tsx lines 172-232) -/

/-- One option inside a property group (`group.options` map entry). -/
structure OptionRec where
  valueName : String
  valueId : Nat
  image : String          -- "" encodes a missing image
  availableSkus : List Sku
deriving DecidableEq

/-- One group in the `groups` map before conversion to an array. -/
structure GroupRec where
  propName : String
  propId : Nat
  options : List OptionRec
deriving DecidableEq

/-- The `prop_id:value_id` lookup key used for option images. -/
def imageKey (propId valueId : Nat) : String :=
  toString propId ++ ":" ++ toString valueId

/-- Processing of one property `p` of one SKU against the options map of its
group: initialize the option if absent (resolving its image from the property
image map, falling back to the SKU's image), then push the SKU onto the
option's `availableSkus`. -/
def addOptionSku (m : List (String × String)) (sku : Sku) (p : SkuProp)
    (opts : List OptionRec) : List OptionRec :=
  (if opts.any (fun o => o.valueName == p.value_name) then opts
   else opts ++ [⟨p.value_name, p.value_id,
     (mapGet m (imageKey p.prop_id p.value_id)).getD sku.pic_url, []⟩]).map
    (fun o =>
      if o.valueName == p.value_name then
        { o with availableSkus := o.availableSkus ++ [sku] }
      else o)

/-- Processing of one property `p` of one SKU against the groups map:
initialize the group if absent, then update its options. -/
def addSkuProp (m : List (String × String)) (groups : List GroupRec)
    (sku : Sku) (p : SkuProp) : List GroupRec :=
  (if groups.any (fun g => g.propName == p.prop_name) then groups
   else groups ++ [⟨p.prop_name, p.prop_id, []⟩]).map
    (fun g =>
      if g.propName == p.prop_name then
        { g with options := addOptionSku m sku p g.options }
      else g)

/-- The `groups` map after the double `forEach` over the SKU list and each
SKU's display properties. -/
def buildGroupsRaw (prod : Product) : List GroupRec :=
  let m := buildPropertyImageMap prod.property_image_list
  prod.sku_list.foldl
    (fun gs sku => (displayProperties prod sku).foldl
      (fun gs p => addSkuProp m gs sku p) gs) []

/-- One entry of the final `propertyGroups` array (with `showImages`). -/
structure PropertyGroup where
  propName : String
  propId : Nat
  options : List OptionRec
  showImages : Bool
deriving DecidableEq

/-- Conversion of a raw group to its array form, computing `showImages`
(at least one image present and more than one distinct image). -/
def toPropertyGroup (g : GroupRec) : PropertyGroup :=
  let options := g.options
  let imagesAvailable := (options.filter (fun o => o.image != "")).length
  let uniqueImages := ((options.map (fun o => o.image)).filter (fun i => i != "")).dedup
  ⟨g.propName, g.propId, options,
    decide (0 < imagesAvailable) && decide (1 < uniqueImages.length)⟩

/-- The `propertyGroupsArray`: raw groups converted and stably sorted
ascending by number of options (`(a, b) => a.options.length - b.options.length`;
`List.insertionSort` with `≤` on lengths is stable in the same way as JS
`Array.sort`). -/
def propertyGroups (prod : Product) : List PropertyGroup :=
  ((buildGroupsRaw prod).map toPropertyGroup).insertionSort
    (fun a b => a.options.length ≤ b.options.length)

/-- `hasSkuProperties`: the extraction found at least one property group. -/
def hasSkuProperties (prod : Product) : Bool :=
  0 < (propertyGroups prod).length

/-! ### Selection, availability, toggling, resolution (page.tsx 234-329) -/

/-- Whether a SKU's display properties carry value `v` for group `g`
(the `displayProperties?.some(...)` test). -/
def skuCarries (prod : Product) (sku : Sku) (g v : String) : Bool :=
  (displayProperties prod sku).any (fun p => p.prop_name == g && p.value_name == v)

/-- `isOptionAvailable(propName, valueName)` (page.tsx lines 275-313). -/
def isOptionAvailable (prod : Product) (sel : List (String × String))
    (propName valueName : String) : Bool :=
  let matchingSkus := prod.sku_list.filter (fun sku =>
    (displayProperties prod sku).any (fun p =>
      p.prop_name == propName && p.value_name == valueName))
  let availableSkus := matchingSkus.filter (fun sku =>
    let props := displayProperties prod sku
    let otherSelectedProps := sel.filter (fun kv => kv.1 != propName)
    otherSelectedProps.all (fun kv =>
      props.any (fun p => p.prop_name == kv.1 && p.value_name == kv.2))
    && decide (0 < sku.quantity))
  decide (0 < availableSkus.length)

/-- `handlePropertySelect` (page.tsx lines 316-329): unselect-by-reclick,
otherwise set/replace. -/
def handlePropertySelect (sel : List (String × String))
    (propName valueName : String) : List (String × String) :=
  if mapGet sel propName == some valueName then
    sel.filter (fun kv => kv.1 != propName)
  else
    mapSet sel propName valueName

/-- The auto-match `useEffect` (page.tsx lines 235-272), as the function from
SKU list and selection to the matched SKU.  It only runs when
`hasSkuProperties`; with an empty or incomplete selection it yields `none`. -/
def resolveSku (prod : Product) (sel : List (String × String)) : Option Sku :=
  if sel.isEmpty then none
  else if sel.length != (propertyGroups prod).length then none
  else prod.sku_list.find? (fun sku =>
    (displayProperties prod sku).all (fun p =>
      mapGet sel p.prop_name == some p.value_name))

/-- The auto-select `useEffect` (page.tsx lines 106-121): with a single SKU
select it outright; with several SKUs and no properties select the first SKU
with stock, falling back to the first SKU. -/
def autoSelectSku (skus : List Sku) (hasProps : Bool) : Option Sku :=
  if skus.length == 0 then none
  else if skus.length == 1 then skus.head?
  else if !hasProps then
    match skus.find? (fun sku => decide (0 < sku.quantity)) with
    | some sku => some sku
    | none => skus.head?
  else none

/-! ### Checkout reconciliation (`src/components/OrderSummaryDialog.tsx`) -/

/-- A line item of the render-order (reconciliation) response, restricted to
the fields the categorization and payload logic reads. -/
structure RenderSku where
  sku_id : String
  quantity : Nat                      -- requested quantity
  is_available : Bool
  available_quantity : Option Nat     -- none encodes null/undefined
  seller_id : Nat
deriving DecidableEq

/-- One seller group of the response (`data.items[]`). -/
structure SellerGroup where
  seller_id : Nat
  line_items : List RenderSku
deriving DecidableEq

/-- `flattenedSKUs`: flatten seller groups, stamping the group's seller id
onto each line. -/
def flattenedSKUs (items : List SellerGroup) : List RenderSku :=
  items.flatMap (fun g => g.line_items.map (fun li => { li with seller_id := g.seller_id }))

/-- Verdict predicate of the Available bucket: `sku.is_available`. -/
def isAvailableLine (sku : RenderSku) : Bool :=
  sku.is_available

/-- Verdict predicate of the Insufficient bucket: not available and
`available_quantity !== null && available_quantity !== undefined &&
available_quantity > 0`. -/
def isInsufficientLine (sku : RenderSku) : Bool :=
  !sku.is_available &&
  match sku.available_quantity with
  | some q => decide (0 < q)
  | none => false

/-- Verdict predicate of the Unavailable bucket: not available and
`available_quantity === null || available_quantity === undefined ||
available_quantity === 0`. -/
def isUnavailableLine (sku : RenderSku) : Bool :=
  !sku.is_available &&
  match sku.available_quantity with
  | some q => q == 0
  | none => true

/-- Available bucket (OrderSummaryDialog.tsx line 128). -/
def availableItems (skus : List RenderSku) : List RenderSku :=
  skus.filter isAvailableLine

/-- Insufficient bucket (OrderSummaryDialog.tsx lines 130-135). -/
def insufficientStockItems (skus : List RenderSku) : List RenderSku :=
  skus.filter isInsufficientLine

/-- Unavailable bucket (OrderSummaryDialog.tsx lines 137-142). -/
def unavailableItems (skus : List RenderSku) : List RenderSku :=
  skus.filter isUnavailableLine

/-- `hasAdjustments`: `Object.keys(adjustedQuantities).length > 0`.
The `adjustedQuantities` record is a `List (String × Int)` association list
(values are `Int` because they come from `parseInt` of free-form input). -/
def hasAdjustments (adj : List (String × Int)) : Bool :=
  !adj.isEmpty

/-- The clamp in `handleQuantityAdjust`:
`Math.max(0, Math.min(newQuantity, maxQuantity))`. -/
def clampAdjustedQuantity (newQuantity maxQuantity : Int) : Int :=
  max 0 (min newQuantity maxQuantity)

/-- Guard of the Create Order button (OrderSummaryDialog.tsx line 284):
available items exist, no pending adjustments, no insufficient-stock items. -/
def createOrderOffered (items : List SellerGroup) (adj : List (String × Int)) : Bool :=
  let flat := flattenedSKUs items
  decide (0 < (availableItems flat).length)
  && !(hasAdjustments adj)
  && (insufficientStockItems flat).length == 0

/-- Step 2 of `handleReCalculate` (lines 201-210): the sku ids submitted for
re-validation — every available line plus every insufficient line whose
adjusted quantity is unset or strictly positive. -/
def reCalculateSkuIds (skus : List RenderSku) (adj : List (String × Int)) :
    List String :=
  (availableItems skus).map (fun sku => sku.sku_id)
  ++ ((insufficientStockItems skus).map (fun sku => sku.sku_id)).filter
      (fun skuId =>
        match mapGet adj skuId with
        | none => true
        | some q => decide (0 < q))

/-- Modelled from the spec: the external stock/price oracle ("render order",
§6/§4.4 of the design) is not part of this repository; per its contract it
marks a line `is_available` exactly when the full requested quantity can be
fulfilled, and reports the fulfillable stock in `available_quantity`
(`none` when the item no longer exists). -/
def oracleIsAvailable (requested : Nat) (stock : Option Nat) : Bool :=
  match stock with
  | some q => decide (requested ≤ q)
  | none => false

/-! ### Optimistic cart-quantity update (`src/components/CartDialog.tsx`) -/

/-- A cart line as held in the dialog's `items` state. -/
structure CartItem where
  id : String
  skuId : String
  quantity : Int
deriving DecidableEq

/-- Outcome of the PATCH call: `success`, reported failure, or a thrown error. -/
inductive ServerOutcome where
  | success
  | failure
  | thrown
deriving DecidableEq

/-- The optimistic `setItems` (CartDialog.tsx lines 119-125): set the new
quantity on every line with the SKU id. -/
def optimisticUpdate (items : List CartItem) (skuId : String)
    (newQuantity : Int) : List CartItem :=
  items.map (fun item =>
    if item.skuId == skuId then { item with quantity := newQuantity } else item)

/-- `updateQuantity` (CartDialog.tsx lines 114-161) as a state transition:
the first component is the state right after the optimistic update, the
second the state after the server call settles (reverted to the
`previousItems` snapshot on failure or thrown error).  With `newQuantity ≤ 0`
the function returns without touching the state. -/
def updateQuantity (items : List CartItem) (skuId : String)
    (newQuantity : Int) (outcome : ServerOutcome) :
    List CartItem × List CartItem :=
  if newQuantity ≤ 0 then (items, items)
  else
    let optimistic := optimisticUpdate items skuId newQuantity
    match outcome with
    | .success => (optimistic, optimistic)
    | .failure => (optimistic, items)
    | .thrown => (optimistic, items)

/-- The group keys, in insertion order. -/
def groupNames (gs : List GroupRec) : List String :=
  gs.map (fun g => g.propName)

/-- The key under which a `property_image_list` entry contributes as a
single-property mapping, `none` when it does not (mirrors the guards and the
`propertyPairs.length === 1` branch of `addPropertyImage`). -/
def singleEntryKey (e : PropertyImageEntry) : Option String :=
  if e.properties == "" || e.image_url == "" then none
  else if (splitOnChar ';' e.properties).length == 1 then
    if trimChars ((splitOnChar ';' e.properties).headD "") == "" then none
    else some (trimChars ((splitOnChar ';' e.properties).headD ""))
  else none

/-- The key under which a multi-property entry contributes as a fallback,
`none` when it does not (mirrors the `length > 1` branch of
`addPropertyImage`). -/
def multiEntryKey (e : PropertyImageEntry) : Option String :=
  if e.properties == "" || e.image_url == "" then none
  else if (splitOnChar ';' e.properties).length == 1 then none
  else
    if trimChars ((splitOnChar ';' e.properties).headD "") == "" then none
    else some (trimChars ((splitOnChar ';' e.properties).headD ""))

/-- Invariant of the group-building fold: every option of every group was
created by some already-processed (SKU, property) pair that carries the
group's name and the option's value name; the option's `valueId` is that
property's value id, the option's first accumulated SKU is the creating SKU,
and the option's image was resolved by looking the property's
`prop_id:value_id` key up in the property-image map with the creating SKU's
picture as fallback. -/
def OptionsInv (m : List (String × String)) (seen : Sku → SkuProp → Prop)
    (gs : List GroupRec) : Prop :=
  ∀ g ∈ gs, ∀ o ∈ g.options,
    ∃ s p, seen s p ∧ p.prop_name = g.propName ∧ p.value_name = o.valueName
      ∧ o.valueId = p.value_id ∧ o.availableSkus.head? = some s
      ∧ o.image = (mapGet m (imageKey p.prop_id p.value_id)).getD s.pic_url

/-- Concrete one-SKU product with a property-image entry, used by the C4
witness. -/
def prodC4 : Product :=
  ⟨[⟨"S1", 4, "picS", [⟨"Color", 1, "Red", 2⟩]⟩], [⟨"1:2", "imgRed"⟩], []⟩

/-- Concrete two-group product (Color ∈ {Red, Blue}, Size ∈ {M, S}) used by
concrete witnesses. -/
def prodC7 : Product :=
  ⟨[⟨"SK1", 3, "", [⟨"Color", 1, "Red", 11⟩, ⟨"Size", 2, "M", 21⟩]⟩,
    ⟨"SK2", 5, "", [⟨"Color", 1, "Blue", 12⟩, ⟨"Size", 2, "S", 22⟩]⟩],
   [], []⟩

/-! ### Helper lemmas about the association-list map model -/

theorem mapHas_iff {α : Type} (m : List (String × α)) (k : String) :
    mapHas m k = true ↔ ∃ kv ∈ m, kv.1 = k := by
  simp [mapHas]

theorem mapGet_cons {α : Type} (kv : String × α) (m : List (String × α))
    (k : String) :
    mapGet (kv :: m) k = if kv.1 = k then some kv.2 else mapGet m k := by
  by_cases h : kv.1 = k
  · simp [mapGet, List.find?_cons_of_pos, h]
  · simp [mapGet, List.find?_cons_of_neg, h]

theorem mapGet_eq_none {α : Type} (m : List (String × α)) (k : String) :
    mapGet m k = none ↔ mapHas m k = false := by
  induction m with
  | nil => simp [mapGet, mapHas]
  | cons kv m ih =>
    rw [mapGet_cons]
    by_cases h : kv.1 = k
    · simp [h, mapHas]
    · simp only [h, if_false, ih, mapHas, List.any_cons]
      simp [h]

theorem mapGet_append {α : Type} (m m' : List (String × α)) (k : String) :
    mapGet (m ++ m') k = (mapGet m k).or (mapGet m' k) := by
  induction m with
  | nil => simp [mapGet]
  | cons kv m ih =>
    rw [List.cons_append, mapGet_cons, mapGet_cons]
    by_cases h : kv.1 = k <;> simp [h, ih]

theorem mapGet_replace_self {α : Type} (m : List (String × α)) (k : String)
    (v : α) :
    mapGet (m.map (fun p => if p.1 == k then (k, v) else p)) k
      = if mapHas m k then some v else none := by
  induction m with
  | nil => rfl
  | cons kv m ih =>
    simp only [List.map_cons]
    by_cases h : kv.1 = k
    · rw [if_pos (show (kv.1 == k) = true by simpa using h), mapGet_cons,
        if_pos (show ((k, v) : String × α).1 = k from rfl),
        if_pos (show mapHas (kv :: m) k = true by simp [mapHas, h])]
    · rw [if_neg (show ¬ (kv.1 == k) = true by simpa using h), mapGet_cons,
        if_neg h, ih,
        show mapHas (kv :: m) k = mapHas m k by simp [mapHas, h]]

theorem mapGet_replace_ne {α : Type} (m : List (String × α)) {k k' : String}
    (v : α) (h : k' ≠ k) :
    mapGet (m.map (fun p => if p.1 == k then (k, v) else p)) k'
      = mapGet m k' := by
  induction m with
  | nil => rfl
  | cons kv m ih =>
    simp only [List.map_cons]
    by_cases hk : kv.1 = k
    · rw [if_pos (show (kv.1 == k) = true by simpa using hk), mapGet_cons,
        if_neg (show ¬ ((k, v) : String × α).1 = k' from fun hh => h hh.symm),
        mapGet_cons, if_neg (show ¬ kv.1 = k' from fun hh => h (hh.symm.trans hk)),
        ih]
    · rw [if_neg (show ¬ (kv.1 == k) = true by simpa using hk), mapGet_cons,
        mapGet_cons]
      by_cases hk' : kv.1 = k'
      · rw [if_pos hk', if_pos hk']
      · rw [if_neg hk', if_neg hk', ih]

theorem mapGet_set_self {α : Type} (m : List (String × α)) (k : String) (v : α) :
    mapGet (mapSet m k v) k = some v := by
  unfold mapSet
  by_cases hm : mapHas m k
  · rw [if_pos hm, mapGet_replace_self, if_pos hm]
  · rw [if_neg hm, mapGet_append,
      (mapGet_eq_none m k).2 (Bool.eq_false_iff.2 hm)]
    simp [mapGet_cons]

theorem mapGet_set_ne {α : Type} (m : List (String × α)) {k k' : String}
    (v : α) (h : k' ≠ k) : mapGet (mapSet m k v) k' = mapGet m k' := by
  unfold mapSet
  by_cases hm : mapHas m k
  · rw [if_pos hm, mapGet_replace_ne _ _ h]
  · rw [if_neg hm, mapGet_append]
    rw [mapGet_cons, if_neg (fun hh => h hh.symm)]
    simp [mapGet]

theorem mapGet_filter_self {α : Type} (m : List (String × α)) (k : String) :
    mapGet (m.filter (fun kv => kv.1 != k)) k = none := by
  induction m with
  | nil => rfl
  | cons kv m ih =>
    by_cases h : kv.1 = k
    · rw [List.filter_cons, if_neg (by simp [h])]
      exact ih
    · rw [List.filter_cons, if_pos (by simp [h]), mapGet_cons, if_neg h]
      exact ih

theorem mapGet_filter_ne {α : Type} (m : List (String × α)) {k k' : String}
    (h : k' ≠ k) :
    mapGet (m.filter (fun kv => kv.1 != k)) k' = mapGet m k' := by
  induction m with
  | nil => rfl
  | cons kv m ih =>
    by_cases hk : kv.1 = k
    · rw [List.filter_cons, if_neg (by simp [hk]), ih, mapGet_cons,
        if_neg (fun hh => h (hh.symm.trans hk))]
    · rw [List.filter_cons, if_pos (by simp [hk]), mapGet_cons, mapGet_cons]
      by_cases hk' : kv.1 = k'
      · rw [if_pos hk', if_pos hk']
      · rw [if_neg hk', if_neg hk', ih]

/-- The filter condition of step 2 of `handleReCalculate`, characterized:
the adjusted quantity is unset or strictly positive. -/
theorem adjustedKeep_iff (o : Option Int) :
    (match o with
      | none => true
      | some q => decide (0 < q)) = true
      ↔ o = none ∨ ∃ q, o = some q ∧ 0 < q := by
  cases o with
  | none => simp
  | some q => simp

/-! ### Claim C1 -/

/-- C1 counterexample: in a reconciliation result with one Available line and
one Unavailable line (and no pending adjustments), the Create Order action is
offered even though the Unavailable bucket is non-empty — refuting the claim
that the commit action is offered only when the Unavailable bucket is empty. -/
theorem C1_counterexample :
    createOrderOffered
        [⟨1, [⟨"A", 2, true, none, 1⟩, ⟨"U", 3, false, some 0, 1⟩]⟩] [] = true
    ∧ 0 < (unavailableItems (flattenedSKUs
        [⟨1, [⟨"A", 2, true, none, 1⟩, ⟨"U", 3, false, some 0, 1⟩]⟩])).length := by
  decide

/-- C1 (amended): the Create Order action is offered iff the Available bucket
is non-empty, no quantity adjustments are pending, and the Insufficient
bucket is empty; the Unavailable bucket plays no role in the guard. -/
theorem C1_create_order_guard (items : List SellerGroup)
    (adj : List (String × Int)) :
    createOrderOffered items adj = true ↔
      (availableItems (flattenedSKUs items) ≠ []
        ∧ adj = []
        ∧ insufficientStockItems (flattenedSKUs items) = []) := by
  unfold createOrderOffered hasAdjustments
  simp only [Bool.and_eq_true, decide_eq_true_eq, Bool.not_eq_true',
    beq_iff_eq, List.length_pos, List.length_eq_zero, and_assoc,
    List.isEmpty_eq_false_iff_exists_mem]
  constructor
  · rintro ⟨h1, h2, h3⟩
    refine ⟨h1, ?_, h3⟩
    cases adj with
    | nil => rfl
    | cons kv l => simp [List.isEmpty] at h2
  · rintro ⟨h1, h2, h3⟩
    exact ⟨h1, by simp [h2, List.isEmpty], h3⟩

/-! ### Claim C2 -/

/-- C2: under the oracle contract (a line is flagged available exactly when
its full requested quantity is fulfillable) and a positive requested
quantity: a line whose fulfillable quantity equals the requested quantity is
classified available and not insufficient; a strictly positive fulfillable
quantity below the requested one is classified insufficient; a
null/undefined/zero `available_quantity` is classified unavailable regardless
of the requested quantity. -/
theorem C2_verdict_classification (s : RenderSku)
    (h : s.is_available = oracleIsAvailable s.quantity s.available_quantity)
    (hq : 0 < s.quantity) :
    (s.available_quantity = some s.quantity →
      isAvailableLine s = true ∧ isInsufficientLine s = false)
    ∧ (∀ q, s.available_quantity = some q → 0 < q → q < s.quantity →
      isInsufficientLine s = true ∧ isAvailableLine s = false)
    ∧ ((s.available_quantity = none ∨ s.available_quantity = some 0) →
      isUnavailableLine s = true ∧ isAvailableLine s = false) := by
  refine ⟨?_, ?_, ?_⟩
  · intro hs
    have hav : s.is_available = true := by
      rw [h, hs]; simp [oracleIsAvailable]
    exact ⟨hav, by simp [isInsufficientLine, hav]⟩
  · intro q hs hq0 hqs
    have hav : s.is_available = false := by
      rw [h, hs]; simp only [oracleIsAvailable, decide_eq_false_iff_not]; omega
    exact ⟨by simp [isInsufficientLine, hav, hs, hq0], hav⟩
  · intro hs
    rcases hs with hs | hs
    · have hav : s.is_available = false := by
        rw [h, hs]; rfl
      exact ⟨by simp [isUnavailableLine, hav, hs], hav⟩
    · have hav : s.is_available = false := by
        rw [h, hs]; simp only [oracleIsAvailable, decide_eq_false_iff_not]; omega
      exact ⟨by simp [isUnavailableLine, hav, hs], hav⟩

/-- C2 witness: the four spec scenarios (requested 5 with fulfillable
5 / 3 / 0 / null) land in the available / insufficient / unavailable /
unavailable buckets. -/
theorem C2_verdict_classification_witness :
    isAvailableLine ⟨"A", 5, true, some 5, 1⟩ = true
    ∧ isInsufficientLine ⟨"B", 5, false, some 3, 1⟩ = true
    ∧ isUnavailableLine ⟨"C", 5, false, some 0, 1⟩ = true
    ∧ isUnavailableLine ⟨"D", 5, false, none, 1⟩ = true := by
  refine ⟨?_, ?_, ?_, ?_⟩
  · exact ((C2_verdict_classification ⟨"A", 5, true, some 5, 1⟩ (by decide)
      (by decide)).1 rfl).1
  · exact ((C2_verdict_classification ⟨"B", 5, false, some 3, 1⟩ (by decide)
      (by decide)).2.1 3 rfl (by decide) (by decide)).1
  · exact ((C2_verdict_classification ⟨"C", 5, false, some 0, 1⟩ (by decide)
      (by decide)).2.2 (Or.inr rfl)).1
  · exact ((C2_verdict_classification ⟨"D", 5, false, none, 1⟩ (by decide)
      (by decide)).2.2 (Or.inl rfl)).1

/-! ### Claim C5 -/

/-- C5: the re-validation payload contains exactly the sku ids of Available
lines plus those of Insufficient lines whose adjusted quantity is unset or
strictly positive; an Insufficient line adjusted to 0 (and not also carried
by an Available line) is absent; and the quantity-adjustment clamp keeps
every adjustment inside `[0, available_quantity]`. -/
theorem C5_revalidation_payload :
    (∀ (skus : List RenderSku) (adj : List (String × Int)) (id : String),
      id ∈ reCalculateSkuIds skus adj ↔
        ((∃ s ∈ skus, isAvailableLine s = true ∧ s.sku_id = id)
          ∨ ((∃ s ∈ skus, isInsufficientLine s = true ∧ s.sku_id = id)
            ∧ (mapGet adj id = none ∨ ∃ q, mapGet adj id = some q ∧ 0 < q))))
    ∧ (∀ (skus : List RenderSku) (adj : List (String × Int)) (id : String),
      mapGet adj id = some 0 →
      (∀ s ∈ skus, isAvailableLine s = true → s.sku_id ≠ id) →
      id ∉ reCalculateSkuIds skus adj)
    ∧ (∀ n m : Int, 0 ≤ m →
      0 ≤ clampAdjustedQuantity n m ∧ clampAdjustedQuantity n m ≤ m) := by
  have hmem : ∀ (skus : List RenderSku) (adj : List (String × Int))
      (id : String),
      id ∈ reCalculateSkuIds skus adj ↔
        ((∃ s ∈ skus, isAvailableLine s = true ∧ s.sku_id = id)
          ∨ ((∃ s ∈ skus, isInsufficientLine s = true ∧ s.sku_id = id)
            ∧ (mapGet adj id = none ∨ ∃ q, mapGet adj id = some q ∧ 0 < q))) := by
    intro skus adj id
    unfold reCalculateSkuIds availableItems insufficientStockItems
    rw [List.mem_append, List.mem_filter, List.mem_map, List.mem_map]
    rw [adjustedKeep_iff (mapGet adj id)]
    constructor
    · rintro (⟨s, hs, rfl⟩ | ⟨⟨s, hs, rfl⟩, hkeep⟩)
      · exact Or.inl ⟨s, (List.mem_filter.1 hs).1, (List.mem_filter.1 hs).2, rfl⟩
      · exact Or.inr ⟨⟨s, (List.mem_filter.1 hs).1, (List.mem_filter.1 hs).2, rfl⟩,
          hkeep⟩
    · rintro (⟨s, hs, hline, rfl⟩ | ⟨⟨s, hs, hline, rfl⟩, hkeep⟩)
      · exact Or.inl ⟨s, List.mem_filter.2 ⟨hs, hline⟩, rfl⟩
      · exact Or.inr ⟨⟨s, List.mem_filter.2 ⟨hs, hline⟩, rfl⟩, hkeep⟩
  refine ⟨hmem, ?_, ?_⟩
  · intro skus adj id hzero hnoavail hmem'
    rcases (hmem skus adj id).1 hmem' with ⟨s, hs, hline, hid⟩ | ⟨_, hkeep⟩
    · exact hnoavail s hs hline hid
    · rcases hkeep with hnone | ⟨q, hq, hqpos⟩
      · rw [hzero] at hnone; cases hnone
      · rw [hzero] at hq
        have : (0 : Int) = q := by injection hq
        omega
  · intro n m hm
    unfold clampAdjustedQuantity
    omega

/-- C5 witness: with an Available line A and an Insufficient line B adjusted
to 0, B is absent from the re-validation payload, and the clamp maps an
input of -5 with maximum 3 into `[0, 3]`. -/
theorem C5_revalidation_payload_witness :
    "B" ∉ reCalculateSkuIds
        [⟨"A", 2, true, some 2, 1⟩, ⟨"B", 3, false, some 1, 1⟩] [("B", 0)]
    ∧ 0 ≤ clampAdjustedQuantity (-5) 3 ∧ clampAdjustedQuantity (-5) 3 ≤ 3 := by
  refine ⟨?_, ?_⟩
  · exact C5_revalidation_payload.2.1
      [⟨"A", 2, true, some 2, 1⟩, ⟨"B", 3, false, some 1, 1⟩] [("B", 0)] "B"
      rfl (by decide)
  · exact C5_revalidation_payload.2.2 (-5) 3 (by decide)

/-! ### Claim C9 -/

/-- C9: a cart-quantity update first applies the new quantity optimistically
(every line with the SKU id shows the new quantity immediately), and when the
server call reports failure or throws, the final state is exactly the
`previousItems` snapshot taken before the mutation. -/
theorem C9_optimistic_rollback (items : List CartItem) (skuId : String)
    (newQuantity : Int) (outcome : ServerOutcome) (h : 0 < newQuantity) :
    ((updateQuantity items skuId newQuantity outcome).1
        = optimisticUpdate items skuId newQuantity
      ∧ ∀ item ∈ (updateQuantity items skuId newQuantity outcome).1,
          item.skuId = skuId → item.quantity = newQuantity)
    ∧ ((outcome = .failure ∨ outcome = .thrown) →
        (updateQuantity items skuId newQuantity outcome).2 = items) := by
  have hguard : ¬ newQuantity ≤ 0 := by omega
  constructor
  · constructor
    · unfold updateQuantity
      rw [if_neg hguard]
      cases outcome <;> rfl
    · intro item hitem hsku
      have h1 : (updateQuantity items skuId newQuantity outcome).1
          = optimisticUpdate items skuId newQuantity := by
        unfold updateQuantity
        rw [if_neg hguard]
        cases outcome <;> rfl
      rw [h1] at hitem
      unfold optimisticUpdate at hitem
      rcases List.mem_map.1 hitem with ⟨a, _, rfl⟩
      by_cases hk : a.skuId = skuId
      · rw [if_pos (by simpa using hk)]
      · rw [if_neg (by simpa using hk)] at hsku ⊢
        exact absurd hsku hk
  · intro hfail
    unfold updateQuantity
    rw [if_neg hguard]
    rcases hfail with rfl | rfl <;> rfl

/-- C9 witness: updating SKU S from quantity 2 to 5 shows 5 immediately, and
after a reported failure the cart is back to quantity 2. -/
theorem C9_optimistic_rollback_witness :
    (updateQuantity [⟨"1", "S", 2⟩] "S" 5 .failure).1 = [⟨"1", "S", 5⟩]
    ∧ (updateQuantity [⟨"1", "S", 2⟩] "S" 5 .failure).2 = [⟨"1", "S", 2⟩] := by
  have h := C9_optimistic_rollback [⟨"1", "S", 2⟩] "S" 5 .failure (by decide)
  exact ⟨by rw [h.1.1]; rfl, h.2 (Or.inl rfl)⟩

/-! ### Claim C10 -/

/-- C10: in the degenerate cases (no SKU properties, or exactly one SKU) a
SKU is always auto-selected: some SKU from the list is selected, and when no
SKU has stock the very first SKU of the list is selected regardless of its
(zero) stock. -/
theorem C10_auto_select_fallback (skus : List Sku) (hasProps : Bool)
    (hne : skus ≠ [])
    (hdeg : hasProps = false ∨ skus.length = 1) :
    (∃ s, autoSelectSku skus hasProps = some s ∧ s ∈ skus)
    ∧ ((∀ s ∈ skus, s.quantity = 0) →
        autoSelectSku skus hasProps = skus.head?) := by
  match skus, hne with
  | a :: l, _ =>
    unfold autoSelectSku
    rw [if_neg (by simp)]
    by_cases hl : l = []
    · subst hl
      rw [if_pos (by simp)]
      exact ⟨⟨a, rfl, List.mem_singleton.2 rfl⟩, fun _ => rfl⟩
    · have hlen : ¬ ((a :: l).length == 1) = true := by
        simp only [List.length_cons, beq_iff_eq]
        intro hb
        exact hl (List.length_eq_zero.1 (by omega))
      rw [if_neg hlen]
      have hprops : hasProps = false := by
        rcases hdeg with hf | h1
        · exact hf
        · exfalso
          apply hl
          apply List.length_eq_zero.1
          simp only [List.length_cons] at h1
          omega
      rw [hprops, if_pos (show (!false) = true from rfl)]
      constructor
      · cases hfind : (a :: l).find? (fun sku => decide (0 < sku.quantity)) with
        | none => exact ⟨a, rfl, List.mem_cons_self a l⟩
        | some s => exact ⟨s, rfl, List.mem_of_find?_eq_some hfind⟩
      · intro hzero
        have hfind : (a :: l).find? (fun sku => decide (0 < sku.quantity))
            = none := by
          rw [List.find?_eq_none]
          intro s hs
          simp [hzero s hs]
        rw [hfind]

/-- C10 witness: a two-SKU product without properties where every SKU is out
of stock still auto-selects the first (out-of-stock) SKU. -/
theorem C10_auto_select_fallback_witness :
    autoSelectSku [⟨"S1", 0, "", []⟩, ⟨"S2", 0, "", []⟩] false
      = some ⟨"S1", 0, "", []⟩ := by
  have h := (C10_auto_select_fallback [⟨"S1", 0, "", []⟩, ⟨"S2", 0, "", []⟩]
    false (by decide) (Or.inl rfl)).2 (by decide)
  exact h.trans rfl

/-! ### Claim C6 -/

/-- Unfolding of `handlePropertySelect` when the value is already selected. -/
theorem handlePropertySelect_of_selected (sel : List (String × String))
    (g v : String) (h : mapGet sel g = some v) :
    handlePropertySelect sel g v = sel.filter (fun kv => kv.1 != g) := by
  unfold handlePropertySelect
  rw [if_pos (by simp [h])]

/-- Unfolding of `handlePropertySelect` when the value is not selected. -/
theorem handlePropertySelect_of_not_selected (sel : List (String × String))
    (g v : String) (h : mapGet sel g ≠ some v) :
    handlePropertySelect sel g v = mapSet sel g v := by
  unfold handlePropertySelect
  rw [if_neg (by simpa [beq_iff_eq] using h)]

/-- C6 counterexample: with "Red" selected for "Color", toggling
("Color", "Blue") twice leaves "Color" unselected instead of restoring
"Red" — refuting the claim's universal "toggling the same (group, value)
twice returns the Selection to its original state". -/
theorem C6_counterexample :
    mapGet (handlePropertySelect
      (handlePropertySelect [("Color", "Red")] "Color" "Blue")
      "Color" "Blue") "Color" = none
    ∧ mapGet [("Color", "Red")] "Color" = some "Red" := by
  exact ⟨rfl, rfl⟩

/-- C6 (amended): toggling an already-selected value removes that group's
entry; toggling any other value sets the group's entry to it; entries of
other groups are never affected.  The double toggle restores the original
Selection (as a mapping) when the value was already selected or the group
was unselected; when a *different* value was selected, the double toggle
leaves the group unselected instead. -/
theorem C6_toggle (sel : List (String × String)) (g v : String) :
    (mapGet sel g = some v →
      handlePropertySelect sel g v = sel.filter (fun kv => kv.1 != g)
      ∧ mapGet (handlePropertySelect sel g v) g = none)
    ∧ (mapGet sel g ≠ some v →
      mapGet (handlePropertySelect sel g v) g = some v)
    ∧ (∀ k, k ≠ g → mapGet (handlePropertySelect sel g v) k = mapGet sel k)
    ∧ ((mapGet sel g = some v ∨ mapGet sel g = none) →
      ∀ k, mapGet (handlePropertySelect
          (handlePropertySelect sel g v) g v) k = mapGet sel k)
    ∧ (∀ v', mapGet sel g = some v' → v' ≠ v →
      mapGet (handlePropertySelect
          (handlePropertySelect sel g v) g v) g = none) := by
  refine ⟨?_, ?_, ?_, ?_, ?_⟩
  · intro h
    rw [handlePropertySelect_of_selected sel g v h]
    exact ⟨rfl, mapGet_filter_self sel g⟩
  · intro h
    rw [handlePropertySelect_of_not_selected sel g v h]
    exact mapGet_set_self sel g v
  · intro k hk
    by_cases h : mapGet sel g = some v
    · rw [handlePropertySelect_of_selected sel g v h]
      exact mapGet_filter_ne sel hk
    · rw [handlePropertySelect_of_not_selected sel g v h]
      exact mapGet_set_ne sel v hk
  · intro hcase k
    rcases hcase with h | h
    · rw [handlePropertySelect_of_selected sel g v h]
      have h2 : mapGet (sel.filter (fun kv => kv.1 != g)) g ≠ some v := by
        rw [mapGet_filter_self]
        exact fun hh => Option.noConfusion hh
      rw [handlePropertySelect_of_not_selected _ g v h2]
      by_cases hk : k = g
      · subst hk
        rw [mapGet_set_self, h]
      · rw [mapGet_set_ne _ v hk, mapGet_filter_ne sel hk]
    · have h1 : mapGet sel g ≠ some v := by
        rw [h]
        exact fun hh => Option.noConfusion hh
      rw [handlePropertySelect_of_not_selected sel g v h1]
      rw [handlePropertySelect_of_selected _ g v (mapGet_set_self sel g v)]
      by_cases hk : k = g
      · subst hk
        rw [mapGet_filter_self, h]
      · rw [mapGet_filter_ne _ hk, mapGet_set_ne _ v hk]
  · intro v' hv' hne
    have h1 : mapGet sel g ≠ some v := by
      rw [hv']
      intro hh
      exact hne (Option.some.inj hh)
    rw [handlePropertySelect_of_not_selected sel g v h1]
    rw [handlePropertySelect_of_selected _ g v (mapGet_set_self sel g v)]
    exact mapGet_filter_self _ g

/-- C6 witness: toggling ("Color", "Red") twice on a Selection that already
maps "Color" to "Red" restores the mapping. -/
theorem C6_toggle_witness :
    mapGet (handlePropertySelect
      (handlePropertySelect [("Color", "Red")] "Color" "Red")
      "Color" "Red") "Color" = some "Red" := by
  have h := (C6_toggle [("Color", "Red")] "Color" "Red").2.2.2.1
    (Or.inl rfl) "Color"
  exact h.trans rfl

/-! ### Claim C3 -/

/-- C3: `isOptionAvailable(g, v)` is true iff some SKU carries value `v` for
group `g`, carries the selected value of every *other* currently selected
group, and has stock > 0; in particular it is false whenever every SKU
carrying the value has zero stock. -/
theorem C3_isOptionAvailable (prod : Product) (sel : List (String × String))
    (g v : String) :
    (isOptionAvailable prod sel g v = true ↔
      ∃ s ∈ prod.sku_list, skuCarries prod s g v = true
        ∧ (∀ kv ∈ sel, kv.1 ≠ g → skuCarries prod s kv.1 kv.2 = true)
        ∧ 0 < s.quantity)
    ∧ ((∀ s ∈ prod.sku_list, skuCarries prod s g v = true → s.quantity = 0) →
      isOptionAvailable prod sel g v = false) := by
  have hiff : isOptionAvailable prod sel g v = true ↔
      ∃ s ∈ prod.sku_list, skuCarries prod s g v = true
        ∧ (∀ kv ∈ sel, kv.1 ≠ g → skuCarries prod s kv.1 kv.2 = true)
        ∧ 0 < s.quantity := by
    unfold isOptionAvailable skuCarries
    simp only [decide_eq_true_eq, List.length_pos_iff_exists_mem,
      List.mem_filter, Bool.and_eq_true, List.all_eq_true, bne_iff_ne, ne_eq,
      and_imp]
    constructor
    · rintro ⟨s, ⟨hs, hcar⟩, hall, hq⟩
      exact ⟨s, hs, hcar, fun kv hkv hne => hall kv hkv hne, hq⟩
    · rintro ⟨s, hs, hcar, hall, hq⟩
      exact ⟨s, ⟨hs, hcar⟩, fun kv hkv hne => hall kv hkv hne, hq⟩
  refine ⟨hiff, ?_⟩
  intro hzero
  cases hb : isOptionAvailable prod sel g v with
  | false => rfl
  | true =>
    exfalso
    rcases hiff.1 hb with ⟨s, hs, hcar, _, hq⟩
    rw [hzero s hs hcar] at hq
    exact lt_irrefl 0 hq

/-- C3 witness: an Option ("Color", "Red") whose only supporting SKU has
zero stock is reported unavailable. -/
theorem C3_isOptionAvailable_witness :
    isOptionAvailable ⟨[⟨"S1", 0, "", [⟨"Color", 1, "Red", 2⟩]⟩], [], []⟩
      [] "Color" "Red" = false := by
  exact (C3_isOptionAvailable ⟨[⟨"S1", 0, "", [⟨"Color", 1, "Red", 2⟩]⟩], [], []⟩
    [] "Color" "Red").2 (by decide)

/-! ### Group-name lemmas for the property-group builder -/

theorem any_propName_iff (gs : List GroupRec) (p : SkuProp) :
    gs.any (fun g => g.propName == p.prop_name) = true
      ↔ p.prop_name ∈ groupNames gs := by
  simp only [groupNames, List.any_eq_true, beq_iff_eq, List.mem_map]

theorem groupNames_addSkuProp (m : List (String × String)) (gs : List GroupRec)
    (sku : Sku) (p : SkuProp) :
    groupNames (addSkuProp m gs sku p)
      = if gs.any (fun g => g.propName == p.prop_name) then groupNames gs
        else groupNames gs ++ [p.prop_name] := by
  unfold addSkuProp
  have hpres : ∀ gs' : List GroupRec,
      groupNames (gs'.map (fun g =>
        if g.propName == p.prop_name then
          { g with options := addOptionSku m sku p g.options }
        else g)) = groupNames gs' := by
    intro gs'
    unfold groupNames
    rw [List.map_map]
    apply List.map_congr_left
    intro g _
    by_cases hg : (g.propName == p.prop_name) = true
    · simp only [Function.comp_apply, if_pos hg]
    · simp only [Function.comp_apply, if_neg hg]
  by_cases h : gs.any (fun g => g.propName == p.prop_name) = true
  · rw [if_pos h, if_pos h, hpres]
  · rw [if_neg h, if_neg h, hpres, groupNames, List.map_append, ← groupNames]
    rfl

theorem groupNames_addSkuProp_mem (m : List (String × String))
    (gs : List GroupRec) (sku : Sku) (p : SkuProp) (x : String) :
    x ∈ groupNames (addSkuProp m gs sku p)
      ↔ x ∈ groupNames gs ∨ x = p.prop_name := by
  rw [groupNames_addSkuProp]
  by_cases h : gs.any (fun g => g.propName == p.prop_name) = true
  · rw [if_pos h]
    have hp := (any_propName_iff gs p).1 h
    constructor
    · exact Or.inl
    · rintro (hx | rfl)
      · exact hx
      · exact hp
  · rw [if_neg h]
    simp [List.mem_append]

theorem groupNames_addSkuProp_nodup (m : List (String × String))
    (gs : List GroupRec) (sku : Sku) (p : SkuProp)
    (h : (groupNames gs).Nodup) :
    (groupNames (addSkuProp m gs sku p)).Nodup := by
  rw [groupNames_addSkuProp]
  by_cases hc : gs.any (fun g => g.propName == p.prop_name) = true
  · rw [if_pos hc]
    exact h
  · rw [if_neg hc]
    have hnot : p.prop_name ∉ groupNames gs := fun hmem =>
      hc ((any_propName_iff gs p).2 hmem)
    simp only [List.nodup_append, List.nodup_cons, List.not_mem_nil,
      not_false_iff, List.nodup_nil, and_true, true_and]
    exact ⟨h, fun a ha hb => hnot (by
      rcases List.mem_singleton.1 hb with rfl
      exact ha)⟩

theorem groupNames_foldProps_mem (m : List (String × String)) (sku : Sku)
    (ps : List SkuProp) (gs : List GroupRec) (x : String) :
    x ∈ groupNames (ps.foldl (fun gs p => addSkuProp m gs sku p) gs)
      ↔ x ∈ groupNames gs ∨ ∃ p ∈ ps, p.prop_name = x := by
  induction ps generalizing gs with
  | nil => simp
  | cons p ps ih =>
    rw [List.foldl_cons, ih, groupNames_addSkuProp_mem]
    constructor
    · rintro ((hx | rfl) | ⟨p', hp', hx⟩)
      · exact Or.inl hx
      · exact Or.inr ⟨p, List.mem_cons_self p ps, rfl⟩
      · exact Or.inr ⟨p', List.mem_cons_of_mem p hp', hx⟩
    · rintro (hx | ⟨p', hp', hx⟩)
      · exact Or.inl (Or.inl hx)
      · rcases List.mem_cons.1 hp' with rfl | hp''
        · exact Or.inl (Or.inr hx.symm)
        · exact Or.inr ⟨p', hp'', hx⟩

theorem groupNames_foldProps_nodup (m : List (String × String)) (sku : Sku)
    (ps : List SkuProp) (gs : List GroupRec)
    (h : (groupNames gs).Nodup) :
    (groupNames (ps.foldl (fun gs p => addSkuProp m gs sku p) gs)).Nodup := by
  induction ps generalizing gs with
  | nil => exact h
  | cons p ps ih =>
    rw [List.foldl_cons]
    exact ih _ (groupNames_addSkuProp_nodup m gs sku p h)

theorem groupNames_foldSkus_mem (m : List (String × String)) (prod : Product)
    (skus : List Sku) (gs : List GroupRec) (x : String) :
    x ∈ groupNames (skus.foldl
      (fun gs sku => (displayProperties prod sku).foldl
        (fun gs p => addSkuProp m gs sku p) gs) gs)
      ↔ x ∈ groupNames gs
        ∨ ∃ s ∈ skus, ∃ p ∈ displayProperties prod s, p.prop_name = x := by
  induction skus generalizing gs with
  | nil => simp
  | cons s skus ih =>
    rw [List.foldl_cons, ih, groupNames_foldProps_mem]
    constructor
    · rintro ((hx | ⟨p, hp, hx⟩) | ⟨s', hs', p, hp, hx⟩)
      · exact Or.inl hx
      · exact Or.inr ⟨s, List.mem_cons_self s skus, p, hp, hx⟩
      · exact Or.inr ⟨s', List.mem_cons_of_mem s hs', p, hp, hx⟩
    · rintro (hx | ⟨s', hs', p, hp, hx⟩)
      · exact Or.inl (Or.inl hx)
      · rcases List.mem_cons.1 hs' with rfl | hs''
        · exact Or.inl (Or.inr ⟨p, hp, hx⟩)
        · exact Or.inr ⟨s', hs'', p, hp, hx⟩

theorem groupNames_foldSkus_nodup (m : List (String × String)) (prod : Product)
    (skus : List Sku) (gs : List GroupRec)
    (h : (groupNames gs).Nodup) :
    (groupNames (skus.foldl
      (fun gs sku => (displayProperties prod sku).foldl
        (fun gs p => addSkuProp m gs sku p) gs) gs)).Nodup := by
  induction skus generalizing gs with
  | nil => exact h
  | cons s skus ih =>
    rw [List.foldl_cons]
    exact ih _ (groupNames_foldProps_nodup m s _ gs h)

theorem buildGroupsRaw_names_mem (prod : Product) (x : String) :
    x ∈ groupNames (buildGroupsRaw prod)
      ↔ ∃ s ∈ prod.sku_list, ∃ p ∈ displayProperties prod s,
          p.prop_name = x := by
  unfold buildGroupsRaw
  rw [groupNames_foldSkus_mem]
  simp [groupNames]

theorem buildGroupsRaw_names_nodup (prod : Product) :
    (groupNames (buildGroupsRaw prod)).Nodup := by
  unfold buildGroupsRaw
  exact groupNames_foldSkus_nodup _ prod _ [] (by simp [groupNames])

/-- `toPropertyGroup` and the stable sort preserve the group keys as a
multiset; in particular membership and nodup-ness of the keys transfer. -/
theorem propertyGroups_names_perm (prod : Product) :
    List.Perm ((propertyGroups prod).map (fun g => g.propName))
      (groupNames (buildGroupsRaw prod)) := by
  unfold propertyGroups
  have hperm := (List.perm_insertionSort
    (fun a b : PropertyGroup => a.options.length ≤ b.options.length)
    ((buildGroupsRaw prod).map toPropertyGroup)).map
    (fun g : PropertyGroup => g.propName)
  rw [List.map_map] at hperm
  have hcomp : ((fun g : PropertyGroup => g.propName) ∘ toPropertyGroup)
      = fun g : GroupRec => g.propName := by
    funext g
    rfl
  rw [hcomp] at hperm
  exact hperm

theorem propertyGroups_names_mem (prod : Product) (x : String) :
    x ∈ (propertyGroups prod).map (fun g => g.propName)
      ↔ ∃ s ∈ prod.sku_list, ∃ p ∈ displayProperties prod s,
          p.prop_name = x := by
  rw [(propertyGroups_names_perm prod).mem_iff]
  exact buildGroupsRaw_names_mem prod x

theorem propertyGroups_names_nodup (prod : Product) :
    ((propertyGroups prod).map (fun g => g.propName)).Nodup := by
  rw [(propertyGroups_names_perm prod).nodup_iff]
  exact buildGroupsRaw_names_nodup prod

/-! ### Claim C8 -/

/-- C8: the built PropertyGroup list partitions the property names — a name
appears as the key of some group iff it appears on some SKU's (display)
properties, and the group keys are pairwise distinct, so every property name
present on any SKU keys exactly one group and every group is backed by at
least one SKU. -/
theorem C8_property_groups_partition (prod : Product) :
    (∀ x, x ∈ (propertyGroups prod).map (fun g => g.propName)
      ↔ ∃ s ∈ prod.sku_list, ∃ p ∈ displayProperties prod s, p.prop_name = x)
    ∧ ((propertyGroups prod).map (fun g => g.propName)).Nodup :=
  ⟨fun x => propertyGroups_names_mem prod x, propertyGroups_names_nodup prod⟩

/-! ### Claim C7 -/

theorem mapGet_isSome_iff {α : Type} (m : List (String × α)) (k : String) :
    (mapGet m k).isSome = true ↔ k ∈ m.map Prod.fst := by
  induction m with
  | nil => simp [mapGet]
  | cons kv m ih =>
    rw [mapGet_cons]
    by_cases h : kv.1 = k
    · simp [h]
    · rw [if_neg h, ih, List.map_cons, List.mem_cons]
      constructor
      · exact Or.inr
      · rintro (hk | hk)
        · exact absurd hk.symm h
        · exact hk

/-- C7: `resolveSku` is a pure function of the SKU list and the Selection:
over the same product, two Selections with well-formed (duplicate-free) keys
and identical lookups resolve to the same SKU; and a Selection whose keys
are drawn from the property groups but which leaves some group unselected
never resolves a SKU. -/
theorem C7_resolve_pure (prod : Product) :
    (∀ sel1 sel2 : List (String × String),
      (sel1.map Prod.fst).Nodup → (sel2.map Prod.fst).Nodup →
      (∀ k, mapGet sel1 k = mapGet sel2 k) →
      resolveSku prod sel1 = resolveSku prod sel2)
    ∧ (∀ sel : List (String × String),
      (sel.map Prod.fst).Nodup →
      (∀ kv ∈ sel, kv.1 ∈ (propertyGroups prod).map (fun g => g.propName)) →
      (∃ g ∈ propertyGroups prod, mapGet sel g.propName = none) →
      resolveSku prod sel = none) := by
  constructor
  · intro sel1 sel2 h1 h2 h
    have hmemeq : ∀ k, (k ∈ sel1.map Prod.fst) ↔ (k ∈ sel2.map Prod.fst) := by
      intro k
      rw [← mapGet_isSome_iff, ← mapGet_isSome_iff, h k]
    have hfin : (sel1.map Prod.fst).toFinset
        = (sel2.map Prod.fst).toFinset := by
      apply Finset.ext
      intro k
      rw [List.mem_toFinset, List.mem_toFinset]
      exact hmemeq k
    have hlen : sel1.length = sel2.length := by
      have hcard := congrArg Finset.card hfin
      rw [List.toFinset_card_of_nodup h1, List.toFinset_card_of_nodup h2,
        List.length_map, List.length_map] at hcard
      exact hcard
    unfold resolveSku
    have hemp : sel1.isEmpty = sel2.isEmpty := by
      cases sel1 <;> cases sel2 <;> simp_all
    rw [hemp, hlen]
    have hpred : (fun sku => (displayProperties prod sku).all
        (fun p => mapGet sel1 p.prop_name == some p.value_name))
        = (fun sku => (displayProperties prod sku).all
        (fun p => mapGet sel2 p.prop_name == some p.value_name)) := by
      funext sku
      congr 1
      funext p
      rw [h p.prop_name]
    rw [hpred]
  · intro sel hnodup hkeys hex
    rcases hex with ⟨g, hg, hnone⟩
    unfold resolveSku
    by_cases hemp : sel.isEmpty = true
    · rw [if_pos hemp]
    · rw [if_neg hemp]
      have hsub : (sel.map Prod.fst).toFinset ⊆
          ((propertyGroups prod).map (fun g => g.propName)).toFinset := by
        intro k hk
        rw [List.mem_toFinset] at hk ⊢
        rcases List.mem_map.1 hk with ⟨kv, hkv, rfl⟩
        exact hkeys kv hkv
      have hnotmem : g.propName ∉ (sel.map Prod.fst) := by
        intro hmem
        have hsome := (mapGet_isSome_iff sel g.propName).2 hmem
        rw [hnone] at hsome
        exact Bool.noConfusion hsome
      have hssub : (sel.map Prod.fst).toFinset ⊂
          ((propertyGroups prod).map (fun g => g.propName)).toFinset := by
        rw [Finset.ssubset_iff_of_subset hsub]
        refine ⟨g.propName, ?_, ?_⟩
        · rw [List.mem_toFinset]
          exact List.mem_map.2 ⟨g, hg, rfl⟩
        · rw [List.mem_toFinset]
          exact hnotmem
      have hcard := Finset.card_lt_card hssub
      rw [List.toFinset_card_of_nodup hnodup,
        List.toFinset_card_of_nodup (propertyGroups_names_nodup prod),
        List.length_map, List.length_map] at hcard
      rw [if_pos (by simp only [bne_iff_ne, ne_eq]; omega)]

/-- C7 witness: on the concrete two-group product, the Selection
{Color ↦ Red, Size ↦ M} written in either entry order resolves identically,
and the partial Selection {Color ↦ Red} (Size unselected) resolves no SKU. -/
theorem C7_resolve_pure_witness :
    resolveSku prodC7 [("Color", "Red"), ("Size", "M")]
      = resolveSku prodC7 [("Size", "M"), ("Color", "Red")]
    ∧ resolveSku prodC7 [("Color", "Red")] = none := by
  constructor
  · apply (C7_resolve_pure prodC7).1
    · decide
    · decide
    · intro k
      rw [mapGet_cons, mapGet_cons, mapGet_cons, mapGet_cons]
      by_cases h1 : "Color" = k <;> by_cases h2 : "Size" = k
      · exact absurd (h1.trans h2.symm) (by decide)
      · simp [h1, h2]
      · simp [h1, h2]
      · simp [h1, h2]
  · apply (C7_resolve_pure prodC7).2
    · decide
    · decide
    · decide

/-! ### Claim C4: property-image map semantics -/

theorem addPropertyImage_single (m : List (String × String))
    (e : PropertyImageEntry) (k : String) (h : singleEntryKey e = some k) :
    addPropertyImage m e = mapSet m k e.image_url := by
  unfold singleEntryKey at h
  unfold addPropertyImage
  by_cases hg : (e.properties == "" || e.image_url == "") = true
  · rw [if_pos hg] at h
    exact Option.noConfusion h
  · rw [if_neg hg] at h
    rw [if_neg hg]
    by_cases hl : ((splitOnChar ';' e.properties).length == 1) = true
    · rw [if_pos hl] at h
      rw [if_pos hl]
      by_cases hk : (trimChars ((splitOnChar ';' e.properties).headD "") == "") = true
      · rw [if_pos hk] at h
        exact Option.noConfusion h
      · rw [if_neg hk] at h
        rw [if_neg hk, Option.some.inj h]
    · rw [if_neg hl] at h
      exact Option.noConfusion h

theorem addPropertyImage_multi (m : List (String × String))
    (e : PropertyImageEntry) (k : String) (h : multiEntryKey e = some k) :
    addPropertyImage m e
      = if mapHas m k then m else mapSet m k e.image_url := by
  unfold multiEntryKey at h
  unfold addPropertyImage
  by_cases hg : (e.properties == "" || e.image_url == "") = true
  · rw [if_pos hg] at h
    exact Option.noConfusion h
  · rw [if_neg hg] at h
    rw [if_neg hg]
    by_cases hl : ((splitOnChar ';' e.properties).length == 1) = true
    · rw [if_pos hl] at h
      exact Option.noConfusion h
    · rw [if_neg hl] at h
      rw [if_neg hl]
      by_cases hk : (trimChars ((splitOnChar ';' e.properties).headD "") == "") = true
      · rw [if_pos hk] at h
        exact Option.noConfusion h
      · rw [if_neg hk] at h
        have hkk := Option.some.inj h
        have hk0 : (k == "") = false := by
          rw [← hkk]
          exact Bool.eq_false_iff.2 hk
        rw [hkk, hk0, Bool.false_or]

theorem addPropertyImage_none (m : List (String × String))
    (e : PropertyImageEntry) (h1 : singleEntryKey e = none)
    (h2 : multiEntryKey e = none) : addPropertyImage m e = m := by
  unfold singleEntryKey at h1
  unfold multiEntryKey at h2
  unfold addPropertyImage
  by_cases hg : (e.properties == "" || e.image_url == "") = true
  · rw [if_pos hg]
  · rw [if_neg hg] at h1 h2
    rw [if_neg hg]
    by_cases hl : ((splitOnChar ';' e.properties).length == 1) = true
    · rw [if_pos hl] at h1
      rw [if_pos hl]
      by_cases hk : (trimChars ((splitOnChar ';' e.properties).headD "") == "") = true
      · rw [if_pos hk]
      · rw [if_neg hk] at h1
        exact Option.noConfusion h1
    · rw [if_neg hl] at h2
      rw [if_neg hl]
      by_cases hk : (trimChars ((splitOnChar ';' e.properties).headD "") == "") = true
      · rw [if_pos (show _ = true by rw [hk, Bool.true_or])]
      · rw [if_neg hk] at h2
        exact Option.noConfusion h2

theorem buildPropertyImageMap_append (l : List PropertyImageEntry)
    (e : PropertyImageEntry) :
    buildPropertyImageMap (l ++ [e])
      = addPropertyImage (buildPropertyImageMap l) e := by
  unfold buildPropertyImageMap
  rw [List.foldl_append]
  rfl

/-- Last single-property mapping wins: when the last single-property entry of
`l` keyed `k` carries URL `u`, the built map sends `k` to `u`. -/
theorem buildPropertyImageMap_last_single (l : List PropertyImageEntry)
    (k u : String)
    (h : ((l.filter (fun e => singleEntryKey e == some k)).getLast?).map
        (fun e => e.image_url) = some u) :
    mapGet (buildPropertyImageMap l) k = some u := by
  induction l using List.reverseRecOn with
  | nil => exact Option.noConfusion h
  | append_singleton l e ih =>
    rw [List.filter_append] at h
    rw [buildPropertyImageMap_append]
    by_cases hs : (singleEntryKey e == some k) = true
    · have hfe : List.filter (fun e => singleEntryKey e == some k) [e] = [e] := by
        rw [List.filter_cons, if_pos hs]
        rfl
      rw [hfe, List.getLast?_concat] at h
      have hu : e.image_url = u := Option.some.inj h
      rw [addPropertyImage_single _ e k (by simpa using hs), mapGet_set_self, hu]
    · have hfe : List.filter (fun e => singleEntryKey e == some k) [e] = [] := by
        rw [List.filter_cons, if_neg hs]
        rfl
      rw [hfe, List.append_nil] at h
      have hrec := ih h
      cases hsk : singleEntryKey e with
      | some k' =>
        have hne : k ≠ k' := by
          intro hh
          apply hs
          rw [hsk, hh]
          exact beq_self_eq_true _
        rw [addPropertyImage_single _ e k' hsk, mapGet_set_ne _ _ hne]
        exact hrec
      | none =>
        cases hmk : multiEntryKey e with
        | some k' =>
          rw [addPropertyImage_multi _ e k' hmk]
          by_cases hkk : k' = k
          · subst hkk
            by_cases hhas : mapHas (buildPropertyImageMap l) k' = true
            · rw [if_pos hhas]
              exact hrec
            · exfalso
              rw [(mapGet_eq_none _ _).2 (Bool.eq_false_iff.2 hhas)] at hrec
              exact Option.noConfusion hrec
          · have hne : k ≠ k' := fun hh => hkk hh.symm
            by_cases hhas : mapHas (buildPropertyImageMap l) k' = true
            · rw [if_pos hhas]
              exact hrec
            · rw [if_neg hhas, mapGet_set_ne _ _ hne]
              exact hrec
        | none =>
          rw [addPropertyImage_none _ e hsk hmk]
          exact hrec

/-- C4 counterexample: two single-property entries with the same key
"10:20" — the built lookup returns the image of the *last* one, refuting
"first single-property mapping wins". -/
theorem C4_counterexample :
    mapGet (buildPropertyImageMap
      [⟨"10:20", "imgA"⟩, ⟨"10:20", "imgB"⟩]) "10:20" = some "imgB"
    ∧ mapGet (buildPropertyImageMap
      [⟨"10:20", "imgA"⟩, ⟨"10:20", "imgB"⟩]) "10:20" ≠ some "imgA" := by
  constructor
  · rfl
  · intro h
    exact absurd (Option.some.inj h) (by decide)

/-! ### Claim C4: option-image invariant of the group builder -/

theorem addOptionSku_inv (m : List (String × String)) (sku : Sku) (p : SkuProp)
    (opts : List OptionRec) (gname : String) (hp : p.prop_name = gname)
    (seen : Sku → SkuProp → Prop) (hseen : seen sku p)
    (h : ∀ o ∈ opts, ∃ s p', seen s p' ∧ p'.prop_name = gname
      ∧ p'.value_name = o.valueName ∧ o.valueId = p'.value_id
      ∧ o.availableSkus.head? = some s
      ∧ o.image = (mapGet m (imageKey p'.prop_id p'.value_id)).getD s.pic_url) :
    ∀ o ∈ addOptionSku m sku p opts, ∃ s p', seen s p' ∧ p'.prop_name = gname
      ∧ p'.value_name = o.valueName ∧ o.valueId = p'.value_id
      ∧ o.availableSkus.head? = some s
      ∧ o.image = (mapGet m (imageKey p'.prop_id p'.value_id)).getD s.pic_url := by
  intro o ho
  unfold addOptionSku at ho
  rcases List.mem_map.1 ho with ⟨o', ho', rfl⟩
  have hofold : o' ∈ opts ∨ o' = ⟨p.value_name, p.value_id,
      (mapGet m (imageKey p.prop_id p.value_id)).getD sku.pic_url, []⟩ := by
    by_cases hany : (opts.any (fun o => o.valueName == p.value_name)) = true
    · rw [if_pos hany] at ho'
      exact Or.inl ho'
    · rw [if_neg hany] at ho'
      rcases List.mem_append.1 ho' with h1 | h1
      · exact Or.inl h1
      · exact Or.inr (List.mem_singleton.1 h1)
  rcases hofold with hmem | rfl
  · rcases h o' hmem with ⟨s, p'', hseen', hname, hval, hvid, hhead, himg⟩
    by_cases hv : (o'.valueName == p.value_name) = true
    · rw [if_pos hv]
      refine ⟨s, p'', hseen', hname, hval, hvid, ?_, himg⟩
      have hne : o'.availableSkus ≠ [] := by
        intro hnil
        rw [hnil] at hhead
        exact Option.noConfusion hhead
      rw [List.head?_append_of_ne_nil _ hne]
      exact hhead
    · rw [if_neg hv]
      exact ⟨s, p'', hseen', hname, hval, hvid, hhead, himg⟩
  · rw [if_pos (by simp)]
    exact ⟨sku, p, hseen, hp, rfl, rfl, rfl, rfl⟩

theorem addSkuProp_inv (m : List (String × String)) (gs : List GroupRec)
    (sku : Sku) (p : SkuProp) (seen : Sku → SkuProp → Prop)
    (hseen : seen sku p) (h : OptionsInv m seen gs) :
    OptionsInv m seen (addSkuProp m gs sku p) := by
  intro g hg
  unfold addSkuProp at hg
  rcases List.mem_map.1 hg with ⟨g', hg', rfl⟩
  have hgold : g' ∈ gs ∨ g' = ⟨p.prop_name, p.prop_id, []⟩ := by
    by_cases hany : (gs.any (fun g => g.propName == p.prop_name)) = true
    · rw [if_pos hany] at hg'
      exact Or.inl hg'
    · rw [if_neg hany] at hg'
      rcases List.mem_append.1 hg' with h1 | h1
      · exact Or.inl h1
      · exact Or.inr (List.mem_singleton.1 h1)
  by_cases hgp : (g'.propName == p.prop_name) = true
  · rw [if_pos hgp]
    have hpn : p.prop_name = g'.propName := (beq_iff_eq.1 hgp).symm
    have hops : ∀ o ∈ g'.options, ∃ s p', seen s p'
        ∧ p'.prop_name = g'.propName ∧ p'.value_name = o.valueName
        ∧ o.valueId = p'.value_id ∧ o.availableSkus.head? = some s
        ∧ o.image = (mapGet m (imageKey p'.prop_id p'.value_id)).getD
            s.pic_url := by
      rcases hgold with hmem | rfl
      · exact h g' hmem
      · intro o ho
        exact absurd ho (List.not_mem_nil o)
    exact addOptionSku_inv m sku p g'.options g'.propName hpn seen hseen hops
  · rw [if_neg hgp]
    rcases hgold with hmem | rfl
    · exact h g' hmem
    · exact absurd (beq_self_eq_true p.prop_name) hgp

theorem foldProps_inv (m : List (String × String)) (sku : Sku)
    (ps : List SkuProp) (gs : List GroupRec) (seen : Sku → SkuProp → Prop)
    (hseen : ∀ p ∈ ps, seen sku p) (h : OptionsInv m seen gs) :
    OptionsInv m seen (ps.foldl (fun gs p => addSkuProp m gs sku p) gs) := by
  induction ps generalizing gs with
  | nil => exact h
  | cons p ps ih =>
    rw [List.foldl_cons]
    apply ih
    · intro p' hp'
      exact hseen p' (List.mem_cons_of_mem p hp')
    · exact addSkuProp_inv m gs sku p seen (hseen p (List.mem_cons_self p ps)) h

theorem foldSkus_inv (m : List (String × String)) (prod : Product)
    (skus : List Sku) (gs : List GroupRec) (seen : Sku → SkuProp → Prop)
    (hseen : ∀ s ∈ skus, ∀ p ∈ displayProperties prod s, seen s p)
    (h : OptionsInv m seen gs) :
    OptionsInv m seen (skus.foldl
      (fun gs sku => (displayProperties prod sku).foldl
        (fun gs p => addSkuProp m gs sku p) gs) gs) := by
  induction skus generalizing gs with
  | nil => exact h
  | cons s skus ih =>
    rw [List.foldl_cons]
    apply ih
    · intro s' hs'
      exact hseen s' (List.mem_cons_of_mem s hs')
    · exact foldProps_inv m s _ gs seen (hseen s (List.mem_cons_self s skus)) h

theorem buildGroupsRaw_inv (prod : Product) :
    OptionsInv (buildPropertyImageMap prod.property_image_list)
      (fun s p => s ∈ prod.sku_list ∧ p ∈ displayProperties prod s)
      (buildGroupsRaw prod) := by
  unfold buildGroupsRaw
  apply foldSkus_inv
  · intro s hs p hp
    exact ⟨hs, hp⟩
  · intro g hg
    exact absurd hg (List.not_mem_nil g)

theorem propertyGroups_options_inv (prod : Product) :
    ∀ g ∈ propertyGroups prod, ∀ o ∈ g.options,
      ∃ s p, (s ∈ prod.sku_list ∧ p ∈ displayProperties prod s)
        ∧ p.prop_name = g.propName ∧ p.value_name = o.valueName
        ∧ o.valueId = p.value_id ∧ o.availableSkus.head? = some s
        ∧ o.image = (mapGet (buildPropertyImageMap prod.property_image_list)
            (imageKey p.prop_id p.value_id)).getD s.pic_url := by
  intro g hg
  unfold propertyGroups at hg
  have hg2 := (List.perm_insertionSort
    (fun a b : PropertyGroup => a.options.length ≤ b.options.length)
    ((buildGroupsRaw prod).map toPropertyGroup)).mem_iff.1 hg
  rcases List.mem_map.1 hg2 with ⟨g0, hg0, rfl⟩
  exact buildGroupsRaw_inv prod g0 hg0

/-- C4 (amended): in the property-image lookup, a single-property entry
always (re)binds its key, so the *last* single-property mapping wins; a
multi-property entry binds its first pair's key only when the key is not yet
bound (fallback); and every Option's image is the map's value for the
creating property's "(property-id:value-id)" key when present, the image of
the first SKU carrying that value otherwise. -/
theorem C4_image_resolution :
    (∀ (l : List PropertyImageEntry) (e : PropertyImageEntry) (k : String),
      singleEntryKey e = some k →
      mapGet (buildPropertyImageMap (l ++ [e])) k = some e.image_url)
    ∧ (∀ (l : List PropertyImageEntry) (e : PropertyImageEntry) (k : String),
      multiEntryKey e = some k →
      mapGet (buildPropertyImageMap (l ++ [e])) k
        = some ((mapGet (buildPropertyImageMap l) k).getD e.image_url))
    ∧ (∀ (l : List PropertyImageEntry) (k u : String),
      ((l.filter (fun e => singleEntryKey e == some k)).getLast?).map
          (fun e => e.image_url) = some u →
      mapGet (buildPropertyImageMap l) k = some u)
    ∧ (∀ prod : Product, ∀ g ∈ propertyGroups prod, ∀ o ∈ g.options,
      ∃ s p, s ∈ prod.sku_list ∧ p ∈ displayProperties prod s
        ∧ p.prop_name = g.propName ∧ p.value_name = o.valueName
        ∧ o.availableSkus.head? = some s
        ∧ o.image = (mapGet (buildPropertyImageMap prod.property_image_list)
            (imageKey p.prop_id p.value_id)).getD s.pic_url) := by
  refine ⟨?_, ?_, ?_, ?_⟩
  · intro l e k h
    rw [buildPropertyImageMap_append, addPropertyImage_single _ e k h,
      mapGet_set_self]
  · intro l e k h
    rw [buildPropertyImageMap_append, addPropertyImage_multi _ e k h]
    by_cases hhas : mapHas (buildPropertyImageMap l) k = true
    · rw [if_pos hhas]
      cases heq : mapGet (buildPropertyImageMap l) k with
      | none =>
        exfalso
        rw [(mapGet_eq_none _ _).1 heq] at hhas
        exact Bool.noConfusion hhas
      | some u => rfl
    · rw [if_neg hhas, mapGet_set_self,
        (mapGet_eq_none _ _).2 (Bool.eq_false_iff.2 hhas)]
      rfl
  · exact buildPropertyImageMap_last_single
  · intro prod g hg o ho
    rcases propertyGroups_options_inv prod g hg o ho with
      ⟨s, p, ⟨hs, hp⟩, hname, hval, _, hhead, himg⟩
    exact ⟨s, p, hs, hp, hname, hval, hhead, himg⟩

/-- C4 witness: a later single-property entry overwrites an earlier one for
key "10:20"; a multi-property entry binds its first pair "1:2" when unbound;
the last single-property entry for "10:20" determines the final value; and on
a concrete product the "Color: Red" option's image is resolved from the
property-image map under key "1:2". -/
theorem C4_image_resolution_witness :
    mapGet (buildPropertyImageMap
      ([⟨"10:20", "imgA"⟩] ++ [⟨"10:20", "imgB"⟩])) "10:20" = some "imgB"
    ∧ mapGet (buildPropertyImageMap ([] ++ [⟨"1:2;3:4", "imgM"⟩])) "1:2"
        = some "imgM"
    ∧ mapGet (buildPropertyImageMap
        [⟨"10:20", "imgA"⟩, ⟨"10:20", "imgB"⟩]) "10:20" = some "imgB"
    ∧ ∃ s p, s ∈ prodC4.sku_list ∧ p ∈ displayProperties prodC4 s
        ∧ p.prop_name = "Color" ∧ p.value_name = "Red"
        ∧ (⟨"Red", 2, "imgRed",
            [⟨"S1", 4, "picS", [⟨"Color", 1, "Red", 2⟩]⟩]⟩ :
              OptionRec).availableSkus.head? = some s
        ∧ (⟨"Red", 2, "imgRed",
            [⟨"S1", 4, "picS", [⟨"Color", 1, "Red", 2⟩]⟩]⟩ :
              OptionRec).image
          = (mapGet (buildPropertyImageMap prodC4.property_image_list)
              (imageKey p.prop_id p.value_id)).getD s.pic_url := by
  refine ⟨?_, ?_, ?_, ?_⟩
  · exact C4_image_resolution.1 [⟨"10:20", "imgA"⟩] ⟨"10:20", "imgB"⟩
      "10:20" rfl
  · exact (C4_image_resolution.2.1 [] ⟨"1:2;3:4", "imgM"⟩ "1:2" rfl).trans rfl
  · exact C4_image_resolution.2.2.1 [⟨"10:20", "imgA"⟩, ⟨"10:20", "imgB"⟩]
      "10:20" "imgB" rfl
  · have h := C4_image_resolution.2.2.2 prodC4
      ⟨"Color", 1, [⟨"Red", 2, "imgRed",
        [⟨"S1", 4, "picS", [⟨"Color", 1, "Red", 2⟩]⟩]⟩], false⟩
      (by decide)
      ⟨"Red", 2, "imgRed", [⟨"S1", 4, "picS", [⟨"Color", 1, "Red", 2⟩]⟩]⟩
      (by decide)
    exact h

end TaobaoUI
